import Mathlib

/-!
Verification of the O-RANJ survey application's offline-sync and
aggregation core against its natural-language specification.

The definitions below are a shallow embedding of the JavaScript source:

* `getTopProblems`, `processSurveyData`, `saveSurveyLocal`, `submitSurvey`,
  `syncOfflineResponses` embed the client (`script.js`);
* `syncResponses` embeds the server reconciliation endpoint
  (`Backend/controllers/surveyResponseController.js`);
* `responseSchemaIndexes` embeds the index declarations of the Mongoose
  `responseSchema` (the SurveyResponse model file).

JavaScript objects used as insertion-ordered dictionaries are modelled as
association lists; JS numbers used as integer ratings/counters as `Int`/`Nat`;
absent or empty string fields as `""` (both are falsy in JS); thrown
exceptions as `Except`/`Option`; the wall clock and id generators as explicit
parameters.
-/

/-- `syncStatus` enum of the SurveyResponse schema. -/
inductive SyncStatus where
  | pending
  | synced
  | failed
deriving DecidableEq, Repr

/-- A `{category, rating}` pair as produced by `getTopProblems`. -/
structure Problem where
  category : String
  rating : Int
deriving DecidableEq, Repr

/-!
## `getTopProblems` (script.js, DataManager)

```js
getTopProblems() {
    const problems = Object.entries(this.currentRatings)
        .map(([category, rating]) => ({ category, rating }))
        .filter(problem => problem.rating > 0)
        .sort((a, b) => b.rating - a.rating)
        .slice(0, 3);
    return problems;
}
```

`Object.entries` enumerates string keys in insertion order, so
`currentRatings` is modelled as an association list.  `Array.prototype.sort`
is stable (ES2019), and the comparator `b.rating - a.rating` orders by
descending rating; this is modelled by a stable descending insertion sort.
-/

/-- Insert `x` into a descending-sorted list, after every element whose
rating is `≥ x.rating` (stability) and before the first strictly smaller. -/
def insertDesc : List Problem → Problem → List Problem
  | [], x => [x]
  | y :: ys, x => if x.rating > y.rating then x :: y :: ys else y :: insertDesc ys x

/-- Stable sort by descending rating (models the stable JS `sort` with
comparator `b.rating - a.rating`). -/
def sortDesc (l : List Problem) : List Problem :=
  l.foldl insertDesc []

/-- `Object.entries(currentRatings).map(...).filter(rating > 0)`. -/
def ratedProblems (ratings : List (String × Int)) : List Problem :=
  (ratings.map fun p => Problem.mk p.1 p.2).filter fun p => p.rating > 0

/-- `getTopProblems` on a ratings dictionary. -/
def getTopProblems (ratings : List (String × Int)) : List Problem :=
  (sortDesc (ratedProblems ratings)).take 3

/-!
## Aggregation: `processSurveyData` (script.js)

The dashboard response documents (shape produced by `collectSurveyData` and
read back from local storage).  Absent fields are modelled by `[]`, `none`
or `""` — exactly the values on which the source's truthiness guards
(`if (response.field)`) skip the field.
-/

/-- A response document as consumed by `processSurveyData`. -/
structure ResponseDoc where
  problemRatings : List (String × Int)
  topProblems : List Problem
  satisfactionRating : Option Int
  likelihoodRating : Option Int
  willingnessToPay : String
  interestedInTrying : String
deriving DecidableEq, Repr

/-- The record returned by `processSurveyData` for a non-empty input. -/
structure ProcessedData where
  totalResponses : Nat
  completionRate : Nat
  problemDistribution : List (String × Nat)
  topProblems : List (String × Nat)
  severityByCategory : List (String × String)
  satisfaction : List (Int × Nat)
  adoptionLikelihood : List (Int × Nat)
  willingnessToPay : List (String × Nat)
  earlyAdopter : Nat × Nat
  avgProblemSeverity : String
  topProblem : String
  solutionInterest : String
deriving DecidableEq, Repr

/-- Whitespace for `String.prototype.trim` (the characters relevant to
survey input). -/
def isJsSpace (c : Char) : Bool :=
  c = ' ' || c = '\t' || c = '\n' || c = '\r'

/-- `String.prototype.trim`: strip leading and trailing whitespace. -/
def jsTrim (s : String) : String :=
  ⟨((s.data.dropWhile isJsSpace).reverse.dropWhile isJsSpace).reverse⟩

/-- `obj[k] = (obj[k] || 0) + 1` on a JS object (insertion-ordered). -/
def bump : List (String × Nat) → String → List (String × Nat)
  | [], k => [(k, 1)]
  | (k', v) :: rest, k =>
    if k' = k then (k', v + 1) :: rest else (k', v) :: bump rest k

/-- `obj[r]++` on the pre-seeded 1–5 histogram objects (key always present
because of the `rating >= 1 && rating <= 5` guard in the source). -/
def bumpBucket : List (Int × Nat) → Int → List (Int × Nat)
  | [], _ => []
  | (k, v) :: rest, r =>
    if k = r then (k, v + 1) :: rest else (k, v) :: bumpBucket rest r

/-- Accumulate `{sum, count}` per category (`severityByCategory` phase 1).
Ratings reaching this point are positive, hence `Nat`. -/
def sevAdd : List (String × (Nat × Nat)) → String → Nat → List (String × (Nat × Nat))
  | [], k, r => [(k, (r, 1))]
  | (k', sc) :: rest, k, r =>
    if k' = k then (k', (sc.1 + r, sc.2 + 1)) :: rest
    else (k', sc) :: sevAdd rest k r

/-- `(sum / count).toFixed(1)` for a non-negative exact rational `sum/count`
with `count > 0`: round to the nearest tenth, ties to the larger value
(the ECMAScript `toFixed` rule), rendered as `"i.f"`. -/
def toFixed1 (sum count : Nat) : String :=
  let t := (20 * sum + count) / (2 * count)
  toString (t / 10) ++ "." ++ toString (t % 10)

/-- `Math.round((yes / total) * 100) + '%'` for `total > 0`
(`Math.round` = half toward +∞, here half up since arguments are ≥ 0). -/
def jsRoundPct (yes total : Nat) : String :=
  toString ((200 * yes + total) / (2 * total)) ++ "%"

/-- The `maxCount` / `topProblem` scan (`count > maxCount` keeps the first
maximal entry in insertion order). -/
def pickTop : List (String × Nat) → Nat → String → Nat × String
  | [], maxCount, top => (maxCount, top)
  | (p, c) :: rest, maxCount, top =>
    if c > maxCount then pickTop rest c p else pickTop rest maxCount top

/-- Mutable accumulator state of the `responses.forEach` loop. -/
structure AggState where
  problemDistribution : List (String × Nat)
  topProblems : List (String × Nat)
  sevAcc : List (String × (Nat × Nat))
  satisfaction : List (Int × Nat)
  adoptionLikelihood : List (Int × Nat)
  willingnessToPay : List (String × Nat)
  earlyYes : Nat
  earlyNo : Nat
  totalSeverity : Nat
  severityCount : Nat
deriving DecidableEq, Repr

/-- Initial accumulator (the literal object in the source, with the 1–5
histograms pre-seeded at zero). -/
def initAgg : AggState :=
  { problemDistribution := []
    topProblems := []
    sevAcc := []
    satisfaction := [(1, 0), (2, 0), (3, 0), (4, 0), (5, 0)]
    adoptionLikelihood := [(1, 0), (2, 0), (3, 0), (4, 0), (5, 0)]
    willingnessToPay := []
    earlyYes := 0
    earlyNo := 0
    totalSeverity := 0
    severityCount := 0 }

/-- One `(category, rating)` iteration of the `problemRatings` loop. -/
def ratingStep (st : AggState) (e : String × Int) : AggState :=
  if e.2 > 0 then
    { st with
      problemDistribution := bump st.problemDistribution e.1
      totalSeverity := st.totalSeverity + e.2.toNat
      severityCount := st.severityCount + 1
      sevAcc := sevAdd st.sevAcc e.1 e.2.toNat }
  else st

/-- One iteration of the `response.topProblems.forEach` loop: bump the
`topProblems` tally and bump `problemDistribution` again (the source's
`if (!pd[cat]) pd[cat] = 0; pd[cat] += 1` — an unconditional increment,
since stored counts are never 0). -/
def topStep (st : AggState) (p : Problem) : AggState :=
  { st with
    topProblems := bump st.topProblems p.category
    problemDistribution := bump st.problemDistribution p.category }

/-- The `// Process satisfaction` block (`if (response.satisfactionRating)`
guard, `parseInt`, 1–5 range check). -/
def satStep (st : AggState) (r : ResponseDoc) : AggState :=
  match r.satisfactionRating with
  | some v =>
    if 1 ≤ v ∧ v ≤ 5 then { st with satisfaction := bumpBucket st.satisfaction v }
    else st
  | none => st

/-- The `// Process adoption likelihood` block. -/
def adoptStep (st : AggState) (r : ResponseDoc) : AggState :=
  match r.likelihoodRating with
  | some v =>
    if 1 ≤ v ∧ v ≤ 5 then
      { st with adoptionLikelihood := bumpBucket st.adoptionLikelihood v }
    else st
  | none => st

/-- The `// Process willingness to pay` block (trimmed free-text key). -/
def wtpStep (st : AggState) (r : ResponseDoc) : AggState :=
  if jsTrim r.willingnessToPay ≠ "" then
    { st with willingnessToPay := bump st.willingnessToPay (jsTrim r.willingnessToPay) }
  else st

/-- The `// Process early adopter` block: any truthy value other than
`'yes'` is counted in the `no` bucket. -/
def earlyStep (st : AggState) (r : ResponseDoc) : AggState :=
  if r.interestedInTrying ≠ "" then
    if r.interestedInTrying = "yes" then { st with earlyYes := st.earlyYes + 1 }
    else { st with earlyNo := st.earlyNo + 1 }
  else st

/-- Processing of one response document (one body of `responses.forEach`):
the ratings loop, the top-problems loop, then the four field blocks, in
source order. -/
def processOne (st : AggState) (r : ResponseDoc) : AggState :=
  earlyStep
    (wtpStep
      (adoptStep
        (satStep (r.topProblems.foldl topStep (r.problemRatings.foldl ratingStep st)) r) r) r) r

/-- `severityByCategory` phase 2: replace each `{sum, count}` by the
one-decimal mean string. -/
def sevFinal (l : List (String × (Nat × Nat))) : List (String × String) :=
  l.map fun e => (e.1, if e.2.2 > 0 then toFixed1 e.2.1 e.2.2 else "0.0")

/-- `processSurveyData(responses)`.  The source returns `null` for an empty
input (`if (responses.length === 0) return null`), modelled as `none`. -/
def processSurveyData (responses : List ResponseDoc) : Option ProcessedData :=
  if responses.length = 0 then none
  else
    let st := responses.foldl processOne initAgg
    let pick1 := pickTop st.topProblems 0 ""
    let pick2 := if pick1.2 = "" then pickTop st.problemDistribution pick1.1 pick1.2 else pick1
    let totalInterest := st.earlyYes + st.earlyNo
    some
      { totalResponses := responses.length
        completionRate := 100
        problemDistribution := st.problemDistribution
        topProblems := st.topProblems
        severityByCategory := sevFinal st.sevAcc
        satisfaction := st.satisfaction
        adoptionLikelihood := st.adoptionLikelihood
        willingnessToPay := st.willingnessToPay
        earlyAdopter := (st.earlyYes, st.earlyNo)
        avgProblemSeverity :=
          if st.severityCount > 0 then toFixed1 st.totalSeverity st.severityCount else "0.0"
        topProblem := if pick2.2 = "" then "No data" else pick2.2
        solutionInterest :=
          if totalInterest > 0 then jsRoundPct st.earlyYes totalInterest else "0%" }

/-!
## Client local store and sync (script.js, DataManager)

`localStorage` state relevant to the claims: the full response list
(`survey_responses`) and the pending-sync queue (`pending_sync_queue`).
`navigator.onLine`, the generated id, the device id and the clock are
environment inputs, passed explicitly.  `apiRequest` throws on any
transport failure or non-2xx response; a call outcome is therefore an
`Option` (`none` = thrown).
-/

/-- A per-item failure entry `{deviceId, error}` of the sync endpoint. -/
structure FailedEntry where
  deviceId : String
  error : String
deriving DecidableEq, Repr

/-- The endpoint's `syncResults` payload: ordered new ids and failures. -/
structure SyncResults where
  successful : List Nat
  failed : List FailedEntry
deriving DecidableEq, Repr

/-- A locally stored survey as written by `saveSurveyLocal`. -/
structure StoredSurvey where
  payload : String
  id : Nat
  deviceId : String
  syncStatus : SyncStatus
deriving DecidableEq, Repr

/-- Client `localStorage` state (response list + pending-sync queue). -/
structure ClientState where
  surveys : List StoredSurvey
  pendingSync : List StoredSurvey
deriving DecidableEq, Repr

/-- `saveSurveyLocal(response)`: push the completed survey onto the stored
list with `syncStatus: navigator.onLine ? 'synced' : 'pending'`, and append
it to the sync queue only when offline. -/
def saveSurveyLocal (online : Bool) (payload : String) (newId : Nat)
    (deviceId : String) (st : ClientState) : ClientState × StoredSurvey :=
  let s : StoredSurvey :=
    { payload := payload
      id := newId
      deviceId := deviceId
      syncStatus := if online then .synced else .pending }
  let st1 := { st with surveys := st.surveys ++ [s] }
  let st2 := if online then st1 else { st1 with pendingSync := st1.pendingSync ++ [s] }
  (st2, s)

/-- `submitSurvey(response)`: when online, attempt the backend POST
(`backendOk = false` models a thrown `apiRequest`); on success the response
is also saved locally "for redundancy", on failure the code falls back to
`saveSurveyLocal`; when offline it saves locally and queues.  `backendOk`
is ignored offline (no request is made). -/
def submitSurvey (online backendOk : Bool) (payload : String) (newId : Nat)
    (deviceId : String) (st : ClientState) : ClientState × StoredSurvey :=
  if online then
    if backendOk then saveSurveyLocal true payload newId deviceId st
    else saveSurveyLocal true payload newId deviceId st
  else saveSurveyLocal false payload newId deviceId st

/-- `syncOfflineResponses()`: no-op success on an empty queue or offline;
otherwise POST the whole queue to `/survey-responses/sync`.  `transport =
none` models a thrown `apiRequest` (rethrown to the caller, state
untouched); on a received reply (whose `success` field is `true` on every
non-thrown path) the queue is cleared.  Returns `.ok none` for the no-op,
`.ok (some r)` for a served sync, `.error ()` for the rethrown failure. -/
def syncOfflineResponses (online : Bool) (transport : Option SyncResults)
    (st : ClientState) : ClientState × Except Unit (Option SyncResults) :=
  if st.pendingSync.length = 0 ∨ online = false then (st, .ok none)
  else
    match transport with
    | none => (st, .error ())
    | some r => ({ st with pendingSync := [] }, .ok (some r))

/-!
## Server reconciliation endpoint: `syncResponses`
(Backend/controllers/surveyResponseController.js)

The persisted collection is a list of `StoredResponse`; `_id` is the
server-generated identifier, modelled as the collection size at creation
time; the server clock is the explicit `now`.  A submitted batch item
carries the client fields; `team`/`collectedBy` that may be present in the
client payload are modelled explicitly so that the server's overriding of
them is visible.  The remaining client data (template ref, answers,
location, ...) is carried opaquely as `payload`.
-/

/-- The authenticated session (`req.user`). -/
structure Auth where
  team : String
  userId : String
deriving DecidableEq, Repr

/-- One candidate item of the submitted batch. -/
structure SyncItem where
  deviceId : String
  startTime : Nat
  team : String
  collectedBy : String
  payload : String
deriving DecidableEq, Repr

/-- A `syncHistory` entry `{timestamp, status, message}`. -/
structure SyncEvent where
  timestamp : Nat
  status : SyncStatus
  message : String
deriving DecidableEq, Repr

/-- A persisted SurveyResponse document. -/
structure StoredResponse where
  id : Nat
  deviceId : String
  startTime : Nat
  team : String
  collectedBy : String
  payload : String
  syncStatus : SyncStatus
  syncHistory : List SyncEvent
deriving DecidableEq, Repr

/-- The dedup-lookup predicate of
`findOne({'deviceInfo.deviceId': d, 'analytics.startTime': t})`. -/
def matchesKey (d : String) (t : Nat) (r : StoredResponse) : Bool :=
  decide (r.deviceId = d) && decide (r.startTime = t)

/-- `SurveyResponse.findOne` on the natural key. -/
def findOneByKey (db : List StoredResponse) (d : String) (t : Nat) :
    Option StoredResponse :=
  db.find? (matchesKey d t)

/-- Number of persisted documents matching a natural key. -/
def countKey (db : List StoredResponse) (d : String) (t : Nat) : Nat :=
  (db.filter (matchesKey d t)).length

/-- `SurveyResponse.create({...responseData, collectedBy: req.user.id,
team: req.user.team, syncStatus: 'synced', syncHistory: [...]})`: the
spread carries the client fields, then the server overrides ownership,
status and history. -/
def mkRecord (a : Auth) (now : Nat) (newId : Nat) (it : SyncItem) : StoredResponse :=
  { id := newId
    deviceId := it.deviceId
    startTime := it.startTime
    team := a.team
    collectedBy := a.userId
    payload := it.payload
    syncStatus := .synced
    syncHistory := [{ timestamp := now, status := .synced, message := "Synced from offline device" }] }

/-- The `for (const responseData of responses)` loop: per item, look up the
natural key; if found push a failure entry, else create the document and
push its new id.  Results keep submission order. -/
def syncGo (a : Auth) (now : Nat) : List SyncItem → List StoredResponse →
    List StoredResponse × SyncResults
  | [], db => (db, { successful := [], failed := [] })
  | it :: rest, db =>
    if (findOneByKey db it.deviceId it.startTime).isSome then
      let r := syncGo a now rest db
      (r.1, { successful := r.2.successful
              failed := { deviceId := it.deviceId, error := "Response already synced" } :: r.2.failed })
    else
      let r := syncGo a now rest (db ++ [mkRecord a now db.length it])
      (r.1, { successful := db.length :: r.2.successful, failed := r.2.failed })

/-- `exports.syncResponses`: process the batch against the collection. -/
def syncResponses (a : Auth) (now : Nat) (items : List SyncItem)
    (db : List StoredResponse) : List StoredResponse × SyncResults :=
  syncGo a now items db

/-- An item whose natural key has no persisted match. -/
def keyFresh (db : List StoredResponse) (it : SyncItem) : Bool :=
  (findOneByKey db it.deviceId it.startTime).isNone

/-- Pairwise-distinct natural keys within a batch. -/
def distinctKeys : List SyncItem → Bool
  | [] => true
  | it :: rest =>
    rest.all (fun j => !(decide (j.deviceId = it.deviceId) && decide (j.startTime = it.startTime))) &&
      distinctKeys rest

/-- Two batches equal except possibly in the client-supplied `team` and
`collectedBy` fields of corresponding items. -/
def sameExceptOwnership : List SyncItem → List SyncItem → Bool
  | [], [] => true
  | i :: is, j :: js =>
    decide (i.deviceId = j.deviceId) && decide (i.startTime = j.startTime) &&
      decide (i.payload = j.payload) && sameExceptOwnership is js
  | _, _ => false

/-!
## Declared schema indexes (models/SurveyResponse.js)

```js
responseSchema.index({ surveyTemplate: 1, createdAt: -1 });
responseSchema.index({ collectedBy: 1, createdAt: -1 });
responseSchema.index({ team: 1, syncStatus: 1 });
responseSchema.index({ createdAt: -1 });
responseSchema.index({ 'deviceInfo.deviceId': 1 });
```

each declared with no options object, hence non-unique (`unique: false` is
the Mongoose default).
-/

/-- One declared index: its field paths and whether it is unique. -/
structure SchemaIndex where
  fields : List String
  unique : Bool
deriving DecidableEq, Repr

/-- The five indexes declared on `responseSchema`. -/
def responseSchemaIndexes : List SchemaIndex :=
  [{ fields := ["surveyTemplate", "createdAt"], unique := false },
   { fields := ["collectedBy", "createdAt"], unique := false },
   { fields := ["team", "syncStatus"], unique := false },
   { fields := ["createdAt"], unique := false },
   { fields := ["deviceInfo.deviceId"], unique := false }]

/-- Rendering of `syncStatus` for index-key comparison. -/
def statusString : SyncStatus → String
  | .pending => "pending"
  | .synced => "synced"
  | .failed => "failed"

/-- Value of an indexed field path on a persisted document (`createdAt` is
the server-assigned creation instant, represented by the creation-ordered
`id`; paths outside the model evaluate to the opaque payload). -/
def fieldVal (r : StoredResponse) : String → String
  | "deviceInfo.deviceId" => r.deviceId
  | "analytics.startTime" => toString r.startTime
  | "team" => r.team
  | "collectedBy" => r.collectedBy
  | "syncStatus" => statusString r.syncStatus
  | "createdAt" => toString r.id
  | _ => r.payload

/-- The key a document contributes to an index. -/
def indexKey (i : SchemaIndex) (r : StoredResponse) : List String :=
  i.fields.map (fieldVal r)

/-- A collection satisfies the declared indexes: every index marked unique
separates any two documents of the collection.  Non-unique indexes impose
no constraint. -/
def satisfiesIndexes (idxs : List SchemaIndex) (db : List StoredResponse) : Prop :=
  ∀ i ∈ idxs, i.unique = true → db.Pairwise fun r s => indexKey i r ≠ indexKey i s

instance (idxs : List SchemaIndex) (db : List StoredResponse) :
    Decidable (satisfiesIndexes idxs db) := by
  unfold satisfiesIndexes
  infer_instance

/-!
## Concrete inputs used by witnesses and counterexamples
-/

/-- A response with every optional field absent/empty. -/
def emptyResponseDoc : ResponseDoc :=
  { problemRatings := []
    topProblems := []
    satisfactionRating := none
    likelihoodRating := none
    willingnessToPay := ""
    interestedInTrying := "" }

/-- A response that rates one category and also lists it top-ranked. -/
def ratedAndTopResponseDoc : ResponseDoc :=
  { emptyResponseDoc with
    problemRatings := [("time", 5)]
    topProblems := [Problem.mk "time" 5] }

/-- A response answering `interestedInTrying` with `'maybe'`. -/
def maybeResponseDoc : ResponseDoc :=
  { emptyResponseDoc with interestedInTrying := "maybe" }

/-- A sample authenticated session. -/
def authSession : Auth :=
  { team := "team-1", userId := "user-1" }

/-- Sample batch items with pairwise-distinct natural keys. -/
def itemOne : SyncItem :=
  { deviceId := "device-1", startTime := 100, team := "tc1", collectedBy := "uc1", payload := "p1" }

/-- Second sample item. -/
def itemTwo : SyncItem :=
  { deviceId := "device-2", startTime := 200, team := "tc2", collectedBy := "uc2", payload := "p2" }

/-- Third sample item. -/
def itemThree : SyncItem :=
  { deviceId := "device-3", startTime := 300, team := "tc3", collectedBy := "uc3", payload := "p3" }

/-- `itemOne` with different client-supplied ownership fields. -/
def itemOneAltOwner : SyncItem :=
  { itemOne with team := "other-team", collectedBy := "other-user" }

/-- Two distinct persisted documents sharing the natural key of `itemOne`. -/
def dupRecordA : StoredResponse := mkRecord authSession 1 0 itemOne

/-- Second document with the same `(deviceId, startTime)` pair. -/
def dupRecordB : StoredResponse := mkRecord authSession 2 1 itemOne

/-- A client state holding one pending survey. -/
def onePendingState : ClientState :=
  { surveys := [{ payload := "s1", id := 1, deviceId := "device-1", syncStatus := .pending }]
    pendingSync := [{ payload := "s1", id := 1, deviceId := "device-1", syncStatus := .pending }] }

/-!
# Theorems

### Lemmas about the stable descending sort of `getTopProblems`
-/

theorem mem_insertDesc {l : List Problem} {x y : Problem} :
    y ∈ insertDesc l x ↔ y ∈ l ∨ y = x := by
  induction l with
  | nil => simp [insertDesc]
  | cons z zs ih =>
    simp only [insertDesc]
    split
    · simp only [List.mem_cons]
      tauto
    · simp only [List.mem_cons, ih]
      tauto

theorem sortedD_insertDesc {l : List Problem} {x : Problem}
    (h : l.Pairwise fun a b => b.rating ≤ a.rating) :
    (insertDesc l x).Pairwise fun a b => b.rating ≤ a.rating := by
  induction l with
  | nil => simp [insertDesc]
  | cons z zs ih =>
    rcases List.pairwise_cons.mp h with ⟨hz, hzs⟩
    simp only [insertDesc]
    split
    · rename_i hgt
      refine List.pairwise_cons.mpr ⟨?_, h⟩
      intro b hb
      rcases List.mem_cons.mp hb with rfl | hb2
      · exact le_of_lt hgt
      · exact le_trans (hz b hb2) (le_of_lt hgt)
    · rename_i hng
      refine List.pairwise_cons.mpr ⟨?_, ih hzs⟩
      intro b hb
      rcases mem_insertDesc.mp hb with hb2 | rfl
      · exact hz b hb2
      · exact not_lt.mp hng

theorem sortedD_foldl (l : List Problem) :
    ∀ acc, (acc.Pairwise fun a b => b.rating ≤ a.rating) →
      (l.foldl insertDesc acc).Pairwise fun a b => b.rating ≤ a.rating := by
  induction l with
  | nil => exact fun acc h => h
  | cons x xs ih => exact fun acc h => ih _ (sortedD_insertDesc h)

theorem mem_foldl_insertDesc (l : List Problem) :
    ∀ acc y, y ∈ l.foldl insertDesc acc ↔ y ∈ acc ∨ y ∈ l := by
  induction l with
  | nil => simp
  | cons x xs ih =>
    intro acc y
    rw [List.foldl_cons, ih]
    simp only [mem_insertDesc, List.mem_cons]
    tauto

theorem filter_eq_nil_of_lt {l : List Problem} {v : Int}
    (h : ∀ p ∈ l, p.rating < v) :
    l.filter (fun p => decide (p.rating = v)) = [] := by
  induction l with
  | nil => rfl
  | cons x xs ih =>
    rw [List.filter_cons, if_neg]
    · exact ih fun p hp => h p (List.mem_cons_of_mem x hp)
    · simpa using ne_of_lt (h x (List.mem_cons_self x xs))

theorem filter_insertDesc {l : List Problem} {x : Problem} {v : Int}
    (hs : l.Pairwise fun a b => b.rating ≤ a.rating) :
    (insertDesc l x).filter (fun p => decide (p.rating = v)) =
      (l ++ [x]).filter (fun p => decide (p.rating = v)) := by
  induction l with
  | nil => rfl
  | cons z zs ih =>
    rcases List.pairwise_cons.mp hs with ⟨hz, hzs⟩
    simp only [insertDesc]
    split
    · rename_i hgt
      by_cases hv : x.rating = v
      · have hnil : (z :: zs).filter (fun p => decide (p.rating = v)) = [] := by
          apply filter_eq_nil_of_lt
          intro p hp
          rcases List.mem_cons.mp hp with rfl | hp2
          · exact hv ▸ hgt
          · exact lt_of_le_of_lt (hz p hp2) (hv ▸ hgt)
        rw [List.filter_cons, if_pos (by simpa using hv), hnil, List.filter_append, hnil]
        simp [List.filter, hv]
      · rw [List.filter_cons, if_neg (by simpa using hv), List.filter_append]
        simp [List.filter, hv]
    · rw [List.cons_append, List.filter_cons, List.filter_cons, ih hzs]

theorem filter_foldl_insertDesc (l : List Problem) :
    ∀ acc, (acc.Pairwise fun a b => b.rating ≤ a.rating) → ∀ v : Int,
      (l.foldl insertDesc acc).filter (fun p => decide (p.rating = v)) =
        (acc ++ l).filter (fun p => decide (p.rating = v)) := by
  induction l with
  | nil => intro acc h v; simp
  | cons x xs ih =>
    intro acc h v
    rw [List.foldl_cons, ih _ (sortedD_insertDesc h) v, List.filter_append,
      filter_insertDesc h, ← List.filter_append, List.append_assoc]
    rfl

/-- C7: for every ratings dictionary, `getTopProblems` returns at most 3
entries, all with positive rating, sorted by descending rating, with ties
kept in first-encountered insertion order (the sorted list, of which the
result is the 3-prefix, preserves the relative order of each rating class);
and on `{A:5, B:5, C:3, D:5}` in that key order it returns
`[A(5), B(5), D(5)]`, excluding `C`. -/
theorem getTopProblems_top3_stable (ratings : List (String × Int)) (v : Int) :
    (getTopProblems ratings).length ≤ 3 ∧
    (getTopProblems ratings).all (fun p => decide (0 < p.rating)) = true ∧
    ((getTopProblems ratings).Pairwise fun a b => b.rating ≤ a.rating) ∧
    (sortDesc (ratedProblems ratings)).filter (fun p => decide (p.rating = v)) =
      (ratedProblems ratings).filter (fun p => decide (p.rating = v)) ∧
    getTopProblems [("A", 5), ("B", 5), ("C", 3), ("D", 5)] =
      [Problem.mk "A" 5, Problem.mk "B" 5, Problem.mk "D" 5] := by
  refine ⟨?_, ?_, ?_, ?_, by decide⟩
  · rw [getTopProblems, List.length_take]
    exact min_le_left _ _
  · rw [List.all_eq_true]
    intro p hp
    have h1 : p ∈ sortDesc (ratedProblems ratings) :=
      List.Sublist.mem hp (List.take_sublist _ _)
    have h2 : p ∈ ratedProblems ratings := by
      rcases (mem_foldl_insertDesc _ _ _).mp h1 with h | h
      · exact absurd h (List.not_mem_nil p)
      · exact h
    have h3 := (List.mem_filter.mp h2).2
    simpa using h3
  · exact List.Pairwise.sublist (List.take_sublist _ _)
      (sortedD_foldl _ _ List.Pairwise.nil)
  · exact (filter_foldl_insertDesc _ _ List.Pairwise.nil v).trans (by simp)

/-!
### Early-adopter bucket lemmas (aggregation loop)
-/

theorem foldl_ratingStep_early (l : List (String × Int)) :
    ∀ st : AggState, (l.foldl ratingStep st).earlyYes = st.earlyYes ∧
      (l.foldl ratingStep st).earlyNo = st.earlyNo := by
  induction l with
  | nil => exact fun st => ⟨rfl, rfl⟩
  | cons x xs ih =>
    intro st
    rw [List.foldl_cons]
    obtain ⟨hy, hn⟩ := ih (ratingStep st x)
    have hsy : (ratingStep st x).earlyYes = st.earlyYes := by
      unfold ratingStep; split <;> rfl
    have hsn : (ratingStep st x).earlyNo = st.earlyNo := by
      unfold ratingStep; split <;> rfl
    exact ⟨hy.trans hsy, hn.trans hsn⟩

theorem foldl_topStep_early (l : List Problem) :
    ∀ st : AggState, (l.foldl topStep st).earlyYes = st.earlyYes ∧
      (l.foldl topStep st).earlyNo = st.earlyNo := by
  induction l with
  | nil => exact fun st => ⟨rfl, rfl⟩
  | cons x xs ih =>
    intro st
    rw [List.foldl_cons]
    exact ih (topStep st x)

theorem satStep_early (st : AggState) (r : ResponseDoc) :
    (satStep st r).earlyYes = st.earlyYes ∧ (satStep st r).earlyNo = st.earlyNo := by
  unfold satStep
  rcases r.satisfactionRating with _ | v
  · exact ⟨rfl, rfl⟩
  · by_cases h : 1 ≤ v ∧ v ≤ 5 <;> simp [h]

theorem adoptStep_early (st : AggState) (r : ResponseDoc) :
    (adoptStep st r).earlyYes = st.earlyYes ∧ (adoptStep st r).earlyNo = st.earlyNo := by
  unfold adoptStep
  rcases r.likelihoodRating with _ | v
  · exact ⟨rfl, rfl⟩
  · by_cases h : 1 ≤ v ∧ v ≤ 5 <;> simp [h]

theorem wtpStep_early (st : AggState) (r : ResponseDoc) :
    (wtpStep st r).earlyYes = st.earlyYes ∧ (wtpStep st r).earlyNo = st.earlyNo := by
  unfold wtpStep
  by_cases h : jsTrim r.willingnessToPay ≠ "" <;> simp [h]

theorem earlyStep_counts (st : AggState) (r : ResponseDoc) :
    (earlyStep st r).earlyYes =
      st.earlyYes + (if r.interestedInTrying = "yes" then 1 else 0) ∧
    (earlyStep st r).earlyNo =
      st.earlyNo +
        (if r.interestedInTrying ≠ "" ∧ r.interestedInTrying ≠ "yes" then 1 else 0) := by
  unfold earlyStep
  by_cases he : r.interestedInTrying = ""
  · simp [he]
  · by_cases hy : r.interestedInTrying = "yes"
    · simp [he, hy]
    · simp [he, hy]

theorem processOne_early (st : AggState) (r : ResponseDoc) :
    (processOne st r).earlyYes =
      st.earlyYes + (if r.interestedInTrying = "yes" then 1 else 0) ∧
    (processOne st r).earlyNo =
      st.earlyNo +
        (if r.interestedInTrying ≠ "" ∧ r.interestedInTrying ≠ "yes" then 1 else 0) := by
  unfold processOne
  obtain ⟨ey, en⟩ := earlyStep_counts
    (wtpStep (adoptStep (satStep (r.topProblems.foldl topStep
      (r.problemRatings.foldl ratingStep st)) r) r) r) r
  obtain ⟨wy, wn⟩ := wtpStep_early
    (adoptStep (satStep (r.topProblems.foldl topStep
      (r.problemRatings.foldl ratingStep st)) r) r) r
  obtain ⟨ay, an⟩ := adoptStep_early
    (satStep (r.topProblems.foldl topStep (r.problemRatings.foldl ratingStep st)) r) r
  obtain ⟨sy, sn⟩ := satStep_early
    (r.topProblems.foldl topStep (r.problemRatings.foldl ratingStep st)) r
  obtain ⟨ty, tn⟩ := foldl_topStep_early r.topProblems (r.problemRatings.foldl ratingStep st)
  obtain ⟨ry, rn⟩ := foldl_ratingStep_early r.problemRatings st
  rw [ey, en, wy, wn, ay, an, sy, sn, ty, tn, ry, rn]
  exact ⟨rfl, rfl⟩

theorem foldl_processOne_early (rs : List ResponseDoc) :
    ∀ st : AggState,
      (rs.foldl processOne st).earlyYes =
        st.earlyYes + (rs.filter fun r => r.interestedInTrying = "yes").length ∧
      (rs.foldl processOne st).earlyNo =
        st.earlyNo +
          (rs.filter fun r =>
            r.interestedInTrying ≠ "" ∧ r.interestedInTrying ≠ "yes").length := by
  induction rs with
  | nil => exact fun st => ⟨rfl, rfl⟩
  | cons r rs ih =>
    intro st
    rw [List.foldl_cons]
    obtain ⟨hy, hn⟩ := ih (processOne st r)
    obtain ⟨py, pn⟩ := processOne_early st r
    rw [List.filter_cons, List.filter_cons]
    constructor
    · rw [hy, py]
      by_cases h : r.interestedInTrying = "yes" <;> simp [h] <;> omega
    · rw [hn, pn]
      by_cases h1 : r.interestedInTrying = "" <;>
        by_cases h2 : r.interestedInTrying = "yes" <;> simp [h1, h2] <;> omega

theorem filter_yes_no_split (rs : List ResponseDoc) :
    (rs.filter fun r => r.interestedInTrying = "yes").length +
      (rs.filter fun r =>
        r.interestedInTrying ≠ "" ∧ r.interestedInTrying ≠ "yes").length =
      (rs.filter fun r => r.interestedInTrying ≠ "").length := by
  induction rs with
  | nil => rfl
  | cons r rs ih =>
    rw [List.filter_cons, List.filter_cons, List.filter_cons]
    by_cases h2 : r.interestedInTrying = "yes"
    · rw [if_pos (by simp [h2]), if_neg (by simp [h2]), if_pos (by simp [h2])]
      simp only [List.length_cons]
      omega
    · by_cases h1 : r.interestedInTrying = ""
      · rw [if_neg (by simp [h2]), if_neg (by simp [h1]), if_neg (by simp [h1])]
        exact ih
      · rw [if_neg (by simp [h2]), if_pos (by simp [h1, h2]), if_pos (by simp [h1])]
        simp only [List.length_cons]
        omega

/-- C10: a response with any non-empty `interestedInTrying` other than
`'yes'` is counted in the `no` bucket, so the conversion-rate denominator
(yes + no) is the number of responses with a non-empty
`interestedInTrying`; concretely, a `'maybe'` answer yields
`earlyAdopter = (0, 1)`. -/
theorem earlyAdopter_buckets (rs : List ResponseDoc) :
    (rs.foldl processOne initAgg).earlyYes =
      (rs.filter fun r => r.interestedInTrying = "yes").length ∧
    (rs.foldl processOne initAgg).earlyNo =
      (rs.filter fun r =>
        r.interestedInTrying ≠ "" ∧ r.interestedInTrying ≠ "yes").length ∧
    (rs.foldl processOne initAgg).earlyYes + (rs.foldl processOne initAgg).earlyNo =
      (rs.filter fun r => r.interestedInTrying ≠ "").length ∧
    (processSurveyData [maybeResponseDoc]).map (fun d => d.earlyAdopter) =
      some (0, 1) := by
  obtain ⟨hy, hn⟩ := foldl_processOne_early rs initAgg
  have hy0 : (rs.foldl processOne initAgg).earlyYes =
      (rs.filter fun r => r.interestedInTrying = "yes").length := by
    rw [hy]; simp [initAgg]
  have hn0 : (rs.foldl processOne initAgg).earlyNo =
      (rs.filter fun r =>
        r.interestedInTrying ≠ "" ∧ r.interestedInTrying ≠ "yes").length := by
    rw [hn]; simp [initAgg]
  refine ⟨hy0, hn0, ?_, by decide⟩
  rw [hy0, hn0]
  exact filter_yes_no_split rs

/-- C2 counterexample: `processSurveyData` applied to the empty response
list returns the null sentinel (`none`), not a record with
`totalResponses = 0` and zeroed histograms. -/
theorem processSurveyData_nil_eq_none : processSurveyData [] = none := rfl

/-- C2 amended: on the empty response list `processSurveyData` returns
`null` (`none`) — the caller renders the empty dashboard on that sentinel —
while the zero/placeholder outputs (pre-seeded 1–5 buckets, `"0.0"`
average, `"No data"` top problem, `"0%"` rate) appear for a non-empty
input whose fields are all absent. -/
theorem processSurveyData_empty_policy :
    processSurveyData [] = none ∧
    processSurveyData [emptyResponseDoc] =
      some
        { totalResponses := 1
          completionRate := 100
          problemDistribution := []
          topProblems := []
          severityByCategory := []
          satisfaction := [(1, 0), (2, 0), (3, 0), (4, 0), (5, 0)]
          adoptionLikelihood := [(1, 0), (2, 0), (3, 0), (4, 0), (5, 0)]
          willingnessToPay := []
          earlyAdopter := (0, 0)
          avgProblemSeverity := "0.0"
          topProblem := "No data"
          solutionInterest := "0%" } :=
  ⟨rfl, by decide⟩

/-- C6: the aggregation double counts — a single response that rates
category `"time"` non-zero and also lists it in `topProblems` contributes
2 (not 1) to `problemDistribution["time"]`, because the top-problems loop
increments the distribution unconditionally. -/
theorem problemDistribution_double_count :
    (processSurveyData [ratedAndTopResponseDoc]).map (fun d => d.problemDistribution) =
      some [("time", 2)] := by
  decide

/-- C5: a response stored by `submitSurvey` after a failed online backend
submission (the `catch` fallback) carries `syncStatus = synced` without any
server acknowledgement, and is not queued for sync — `syncStatus` is
derived from `navigator.onLine` alone; only the offline path stores
`pending`. -/
theorem submitSurvey_failure_marks_synced (payload : String) (newId : Nat)
    (deviceId : String) (st : ClientState) :
    ((submitSurvey true false payload newId deviceId st).2).syncStatus = SyncStatus.synced ∧
    (submitSurvey true false payload newId deviceId st).1.pendingSync = st.pendingSync ∧
    ((submitSurvey false false payload newId deviceId st).2).syncStatus = SyncStatus.pending :=
  ⟨rfl, rfl, rfl⟩

/-- C9: when the batch POST of `syncOfflineResponses` throws (no
successful server response), the client state — in particular the
pending-sync queue — is left exactly as it was, and the error is rethrown
to the caller. -/
theorem syncOfflineResponses_transport_failure (st : ClientState)
    (h : st.pendingSync.length ≠ 0) :
    syncOfflineResponses true none st = (st, Except.error ()) := by
  unfold syncOfflineResponses
  rw [if_neg (by simp [h])]

/-- Witness for C9 at a one-item queue. -/
theorem syncOfflineResponses_transport_failure_witness :
    syncOfflineResponses true none onePendingState = (onePendingState, Except.error ()) :=
  syncOfflineResponses_transport_failure onePendingState (by decide)

/-!
### Lemmas about the reconciliation endpoint
-/

theorem syncGo_cons_found {a : Auth} {now : Nat} {it : SyncItem}
    {rest : List SyncItem} {db : List StoredResponse}
    (h : (findOneByKey db it.deviceId it.startTime).isSome = true) :
    syncGo a now (it :: rest) db =
      ((syncGo a now rest db).1,
        { successful := (syncGo a now rest db).2.successful
          failed := { deviceId := it.deviceId, error := "Response already synced" } ::
            (syncGo a now rest db).2.failed }) := by
  simp only [syncGo]
  rw [if_pos h]

theorem syncGo_cons_notfound {a : Auth} {now : Nat} {it : SyncItem}
    {rest : List SyncItem} {db : List StoredResponse}
    (h : ¬ (findOneByKey db it.deviceId it.startTime).isSome = true) :
    syncGo a now (it :: rest) db =
      ((syncGo a now rest (db ++ [mkRecord a now db.length it])).1,
        { successful := db.length ::
            (syncGo a now rest (db ++ [mkRecord a now db.length it])).2.successful
          failed := (syncGo a now rest (db ++ [mkRecord a now db.length it])).2.failed }) := by
  simp only [syncGo]
  rw [if_neg h]

theorem findOneByKey_none_of_not_isSome {db : List StoredResponse} {d : String} {t : Nat}
    (h : ¬ (findOneByKey db d t).isSome = true) : findOneByKey db d t = none := by
  cases hf : findOneByKey db d t with
  | none => rfl
  | some r => rw [hf] at h; exact absurd rfl h

theorem findOneByKey_mono {db : List StoredResponse} {d : String} {t : Nat}
    (h : (findOneByKey db d t).isSome = true) (ext : List StoredResponse) :
    (findOneByKey (db ++ ext) d t).isSome = true := by
  rcases Option.isSome_iff_exists.mp h with ⟨r, hr⟩
  unfold findOneByKey at hr ⊢
  rw [List.find?_append, hr]
  rfl

theorem syncGo_db_mono (a : Auth) (now : Nat) (items : List SyncItem) :
    ∀ db : List StoredResponse, ∃ ext, (syncGo a now items db).1 = db ++ ext := by
  induction items with
  | nil => exact fun db => ⟨[], (List.append_nil db).symm⟩
  | cons it rest ih =>
    intro db
    by_cases h : (findOneByKey db it.deviceId it.startTime).isSome = true
    · obtain ⟨ext, hext⟩ := ih db
      exact ⟨ext, by rw [syncGo_cons_found h]; exact hext⟩
    · obtain ⟨ext, hext⟩ := ih (db ++ [mkRecord a now db.length it])
      refine ⟨mkRecord a now db.length it :: ext, ?_⟩
      rw [syncGo_cons_notfound h, hext, List.append_assoc]
      rfl

theorem syncGo_preserves_found {a : Auth} {now : Nat} {db : List StoredResponse}
    {d : String} {t : Nat} (items : List SyncItem)
    (h : (findOneByKey db d t).isSome = true) :
    (findOneByKey (syncGo a now items db).1 d t).isSome = true := by
  obtain ⟨ext, hext⟩ := syncGo_db_mono a now items db
  rw [hext]
  exact findOneByKey_mono h ext

theorem syncGo_key_present (a : Auth) (now : Nat) (items : List SyncItem) :
    ∀ (db : List StoredResponse) (it : SyncItem), it ∈ items →
      (findOneByKey (syncGo a now items db).1 it.deviceId it.startTime).isSome = true := by
  induction items with
  | nil => intro db it h; exact absurd h (List.not_mem_nil it)
  | cons j rest ih =>
    intro db it hmem
    by_cases h : (findOneByKey db j.deviceId j.startTime).isSome = true
    · rw [syncGo_cons_found h]
      rcases List.mem_cons.mp hmem with rfl | hit
      · exact syncGo_preserves_found rest h
      · exact ih db it hit
    · rw [syncGo_cons_notfound h]
      rcases List.mem_cons.mp hmem with rfl | hit
      · apply syncGo_preserves_found rest
        have hn := findOneByKey_none_of_not_isSome h
        unfold findOneByKey at hn ⊢
        rw [List.find?_append, hn]
        simp [List.find?, matchesKey, mkRecord]
      · exact ih _ it hit

theorem syncGo_all_found (a : Auth) (now : Nat) (items : List SyncItem) :
    ∀ db : List StoredResponse,
      (items.all fun it => (findOneByKey db it.deviceId it.startTime).isSome) = true →
      syncGo a now items db =
        (db, { successful := []
               failed := items.map fun it =>
                 { deviceId := it.deviceId, error := "Response already synced" } }) := by
  induction items with
  | nil => intro db _; rfl
  | cons it rest ih =>
    intro db h
    rw [List.all_cons, Bool.and_eq_true] at h
    rw [syncGo_cons_found h.1, ih db h.2]
    rfl

theorem countKey_append (db ext : List StoredResponse) (d : String) (t : Nat) :
    countKey (db ++ ext) d t = countKey db d t + countKey ext d t := by
  unfold countKey
  rw [List.filter_append, List.length_append]

theorem countKey_zero_of_none {db : List StoredResponse} {d : String} {t : Nat}
    (h : findOneByKey db d t = none) : countKey db d t = 0 := by
  unfold findOneByKey at h
  rw [List.find?_eq_none] at h
  unfold countKey
  rw [List.length_eq_zero, List.filter_eq_nil_iff]
  exact h

theorem countKey_pos_of_isSome {db : List StoredResponse} {d : String} {t : Nat}
    (h : (findOneByKey db d t).isSome = true) : 1 ≤ countKey db d t := by
  rcases Option.isSome_iff_exists.mp h with ⟨r, hr⟩
  unfold findOneByKey at hr
  have hm := List.mem_of_find?_eq_some hr
  have hp := List.find?_some hr
  exact List.length_pos_of_mem (List.mem_filter.mpr ⟨hm, hp⟩)

theorem syncGo_countKey_le (a : Auth) (now : Nat) (items : List SyncItem) :
    ∀ (db : List StoredResponse) (d : String) (t : Nat), countKey db d t ≤ 1 →
      countKey (syncGo a now items db).1 d t ≤ 1 := by
  induction items with
  | nil => exact fun db d t h => h
  | cons it rest ih =>
    intro db d t h
    by_cases hf : (findOneByKey db it.deviceId it.startTime).isSome = true
    · rw [syncGo_cons_found hf]
      exact ih db d t h
    · rw [syncGo_cons_notfound hf]
      apply ih
      rw [countKey_append]
      by_cases hm : matchesKey d t (mkRecord a now db.length it) = true
      · have hdt : it.deviceId = d ∧ it.startTime = t := by
          unfold matchesKey mkRecord at hm
          rw [Bool.and_eq_true, decide_eq_true_eq, decide_eq_true_eq] at hm
          exact hm
        have hnone : findOneByKey db d t = none := by
          rw [← hdt.1, ← hdt.2]
          exact findOneByKey_none_of_not_isSome hf
        have h0 := countKey_zero_of_none hnone
        have h1 : countKey [mkRecord a now db.length it] d t = 1 := by
          unfold countKey
          rw [List.filter_cons, if_pos hm]
          rfl
        omega
      · have h1 : countKey [mkRecord a now db.length it] d t = 0 := by
          unfold countKey
          rw [List.filter_cons, if_neg hm]
          rfl
        omega

/-- C1: starting from a store with no match for any batch key, running the
reconciliation endpoint twice on the same batch leaves the store of the
first run unchanged — the second run creates nothing, reports every item
as a duplicate failure with its device id, and each item's natural key
`(deviceInfo.deviceId, analytics.startTime)` matches exactly one persisted
record. -/
theorem syncResponses_idempotent (a : Auth) (now1 now2 : Nat)
    (batch : List SyncItem) (db0 : List StoredResponse)
    (hfresh : (batch.all fun it =>
      (findOneByKey db0 it.deviceId it.startTime).isNone) = true) :
    (syncResponses a now2 batch (syncResponses a now1 batch db0).1).1 =
      (syncResponses a now1 batch db0).1 ∧
    (syncResponses a now2 batch (syncResponses a now1 batch db0).1).2 =
      { successful := []
        failed := batch.map fun it =>
          { deviceId := it.deviceId, error := "Response already synced" } } ∧
    (batch.all fun it =>
      decide (countKey (syncResponses a now1 batch db0).1 it.deviceId it.startTime = 1)) =
      true := by
  unfold syncResponses
  have hpresent : ∀ it ∈ batch,
      (findOneByKey (syncGo a now1 batch db0).1 it.deviceId it.startTime).isSome =
        true :=
    fun it hit => syncGo_key_present a now1 batch db0 it hit
  have hall : (batch.all fun it =>
      (findOneByKey (syncGo a now1 batch db0).1 it.deviceId it.startTime).isSome) =
      true :=
    List.all_eq_true.mpr hpresent
  have hsecond := syncGo_all_found a now2 batch (syncGo a now1 batch db0).1 hall
  refine ⟨?_, ?_, ?_⟩
  · rw [hsecond]
  · rw [hsecond]
  · rw [List.all_eq_true]
    intro it hit
    rw [decide_eq_true_eq]
    have hle : countKey (syncGo a now1 batch db0).1 it.deviceId it.startTime ≤ 1 := by
      apply syncGo_countKey_le
      have h0 : (findOneByKey db0 it.deviceId it.startTime).isNone = true :=
        List.all_eq_true.mp hfresh it hit
      have : findOneByKey db0 it.deviceId it.startTime = none :=
        Option.isNone_iff_eq_none.mp h0
      rw [countKey_zero_of_none this]
      omega
    have hge := countKey_pos_of_isSome (hpresent it hit)
    omega

/-- Witness for C1: a fresh two-item batch against an empty store. -/
theorem syncResponses_idempotent_witness :
    (syncResponses authSession 20 [itemOne, itemTwo]
        (syncResponses authSession 10 [itemOne, itemTwo] []).1).1 =
      (syncResponses authSession 10 [itemOne, itemTwo] []).1 ∧
    (syncResponses authSession 20 [itemOne, itemTwo]
        (syncResponses authSession 10 [itemOne, itemTwo] []).1).2 =
      { successful := []
        failed := [itemOne, itemTwo].map fun it =>
          { deviceId := it.deviceId, error := "Response already synced" } } ∧
    ([itemOne, itemTwo].all fun it =>
      decide (countKey (syncResponses authSession 10 [itemOne, itemTwo] []).1
        it.deviceId it.startTime = 1)) = true :=
  syncResponses_idempotent authSession 10 20 [itemOne, itemTwo] [] (by decide)

theorem keyFresh_false_of_isSome {db : List StoredResponse} {it : SyncItem}
    (hf : (findOneByKey db it.deviceId it.startTime).isSome = true) :
    keyFresh db it = false := by
  rcases Option.isSome_iff_exists.mp hf with ⟨r, hr⟩
  unfold keyFresh
  rw [hr]
  rfl

theorem keyFresh_true_of_not_isSome {db : List StoredResponse} {it : SyncItem}
    (hf : ¬ (findOneByKey db it.deviceId it.startTime).isSome = true) :
    keyFresh db it = true := by
  unfold keyFresh
  rw [findOneByKey_none_of_not_isSome hf]
  rfl

theorem syncGo_partial (a : Auth) (now : Nat) (batch : List SyncItem) :
    ∀ db0 : List StoredResponse, distinctKeys batch = true →
      (syncGo a now batch db0).2.successful.length =
        (batch.filter (keyFresh db0)).length ∧
      (syncGo a now batch db0).2.failed =
        (batch.filter fun it => !(keyFresh db0 it)).map
          (fun it => { deviceId := it.deviceId, error := "Response already synced" }) ∧
      (syncGo a now batch db0).1.length =
        db0.length + (batch.filter (keyFresh db0)).length := by
  induction batch with
  | nil => exact fun db0 _ => ⟨rfl, rfl, by simp [syncGo]⟩
  | cons it rest ih =>
    intro db0 hdk
    unfold distinctKeys at hdk
    rw [Bool.and_eq_true] at hdk
    obtain ⟨hdist, hdk'⟩ := hdk
    by_cases hf : (findOneByKey db0 it.deviceId it.startTime).isSome = true
    · have hkf := keyFresh_false_of_isSome hf
      obtain ⟨ih1, ih2, ih3⟩ := ih db0 hdk'
      rw [syncGo_cons_found hf,
        List.filter_cons_of_neg (p := keyFresh db0) (by rw [hkf]; exact Bool.false_ne_true),
        List.filter_cons_of_pos (by rw [hkf]; rfl)]
      refine ⟨ih1, ?_, ih3⟩
      rw [List.map_cons, ih2]
    · have hkf := keyFresh_true_of_not_isSome hf
      have hcong : ∀ j ∈ rest,
          keyFresh (db0 ++ [mkRecord a now db0.length it]) j = keyFresh db0 j := by
        intro j hj
        have hd := List.all_eq_true.mp hdist j hj
        have hfind : List.find? (matchesKey j.deviceId j.startTime)
            [mkRecord a now db0.length it] = none := by
          cases hpx : matchesKey j.deviceId j.startTime (mkRecord a now db0.length it) with
          | false => simp [List.find?, hpx]
          | true =>
            exfalso
            unfold matchesKey mkRecord at hpx
            rw [Bool.and_eq_true, decide_eq_true_eq, decide_eq_true_eq] at hpx
            simp [hpx.1.symm, hpx.2.symm] at hd
        unfold keyFresh findOneByKey
        rw [List.find?_append, hfind, Option.or_none]
      have hfiltereq :
          rest.filter (keyFresh (db0 ++ [mkRecord a now db0.length it])) =
            rest.filter (keyFresh db0) :=
        List.filter_congr hcong
      have hfiltereq2 :
          (rest.filter fun j => !(keyFresh (db0 ++ [mkRecord a now db0.length it]) j)) =
            rest.filter fun j => !(keyFresh db0 j) :=
        List.filter_congr fun j hj => by rw [hcong j hj]
      obtain ⟨ih1, ih2, ih3⟩ := ih (db0 ++ [mkRecord a now db0.length it]) hdk'
      rw [syncGo_cons_notfound hf,
        List.filter_cons_of_pos (p := keyFresh db0) hkf,
        List.filter_cons_of_neg (by rw [hkf]; exact Bool.false_ne_true)]
      refine ⟨?_, ?_, ?_⟩
      · rw [List.length_cons, List.length_cons, ih1, hfiltereq]
      · rw [ih2, hfiltereq2]
      · rw [ih3, hfiltereq]
        simp only [List.length_append, List.length_cons, List.length_nil]
        omega

/-- C3: for a batch with pairwise-distinct natural keys, the endpoint
persists exactly the items whose key has no persisted match, and reports
each matching item as failed with its client device id, in order, without
aborting the rest of the batch. -/
theorem syncResponses_partial_batch (a : Auth) (now : Nat)
    (batch : List SyncItem) (db0 : List StoredResponse)
    (hdk : distinctKeys batch = true) :
    (syncResponses a now batch db0).2.successful.length =
      (batch.filter (keyFresh db0)).length ∧
    (syncResponses a now batch db0).2.failed =
      (batch.filter fun it => !(keyFresh db0 it)).map
        (fun it => { deviceId := it.deviceId, error := "Response already synced" }) ∧
    (syncResponses a now batch db0).1.length =
      db0.length + (batch.filter (keyFresh db0)).length :=
  syncGo_partial a now batch db0 hdk

/-- Witness for C3: a 3-item batch whose second item already exists
server-side yields 2 successes, 1 failure naming the second item's device
id, and exactly the 2 new documents persisted. -/
theorem syncResponses_partial_batch_witness :
    (syncResponses authSession 5 [itemOne, itemTwo, itemThree]
        [mkRecord authSession 1 0 itemTwo]).2.successful.length = 2 ∧
    (syncResponses authSession 5 [itemOne, itemTwo, itemThree]
        [mkRecord authSession 1 0 itemTwo]).2.failed =
      [{ deviceId := "device-2", error := "Response already synced" }] ∧
    (syncResponses authSession 5 [itemOne, itemTwo, itemThree]
        [mkRecord authSession 1 0 itemTwo]).1.length = 3 := by
  have h := syncResponses_partial_batch authSession 5 [itemOne, itemTwo, itemThree]
    [mkRecord authSession 1 0 itemTwo] (by decide)
  refine ⟨h.1.trans (by decide), ?_, h.2.2.trans (by decide)⟩
  rw [h.2.1]
  decide

theorem syncGo_ownership_eq (a : Auth) (now : Nat) :
    ∀ (b1 b2 : List SyncItem) (db : List StoredResponse),
      sameExceptOwnership b1 b2 = true →
      syncGo a now b1 db = syncGo a now b2 db := by
  intro b1
  induction b1 with
  | nil =>
    intro b2 db h
    cases b2 with
    | nil => rfl
    | cons j js => exact absurd h (by simp [sameExceptOwnership])
  | cons i is ih =>
    intro b2 db h
    cases b2 with
    | nil => exact absurd h (by simp [sameExceptOwnership])
    | cons j js =>
      unfold sameExceptOwnership at h
      rw [Bool.and_eq_true, Bool.and_eq_true, Bool.and_eq_true,
        decide_eq_true_eq, decide_eq_true_eq, decide_eq_true_eq] at h
      obtain ⟨⟨⟨hd, hs⟩, hp⟩, hrest⟩ := h
      have hfind : findOneByKey db i.deviceId i.startTime =
          findOneByKey db j.deviceId j.startTime := by
        rw [hd, hs]
      by_cases hf : (findOneByKey db i.deviceId i.startTime).isSome = true
      · rw [syncGo_cons_found hf, syncGo_cons_found (by rw [← hfind]; exact hf),
          ih js db hrest, hd]
      · have hrec : mkRecord a now db.length i = mkRecord a now db.length j := by
          unfold mkRecord
          rw [hd, hs, hp]
        rw [syncGo_cons_notfound hf, syncGo_cons_notfound (by rw [← hfind]; exact hf),
          hrec, ih js _ hrest]

theorem syncGo_created_records (a : Auth) (now : Nat) (items : List SyncItem) :
    ∀ db : List StoredResponse,
      ((syncGo a now items db).1.all fun r =>
        decide (r ∈ db) ||
          (decide (r.team = a.team) && decide (r.collectedBy = a.userId) &&
            decide (r.syncStatus = SyncStatus.synced) &&
            decide (r.syncHistory =
              [{ timestamp := now, status := SyncStatus.synced,
                 message := "Synced from offline device" }]))) = true := by
  induction items with
  | nil =>
    intro db
    rw [List.all_eq_true]
    intro r hr
    rw [Bool.or_eq_true]
    exact Or.inl (by rw [decide_eq_true_eq]; exact hr)
  | cons it rest ih =>
    intro db
    by_cases hf : (findOneByKey db it.deviceId it.startTime).isSome = true
    · rw [syncGo_cons_found hf]
      exact ih db
    · rw [syncGo_cons_notfound hf]
      have h := ih (db ++ [mkRecord a now db.length it])
      rw [List.all_eq_true] at h ⊢
      intro r hr
      have hres := h r hr
      rw [Bool.or_eq_true] at hres ⊢
      rcases hres with hmem | hprops
      · rw [decide_eq_true_eq] at hmem
        rcases List.mem_append.mp hmem with hdb | hrec
        · exact Or.inl (by rw [decide_eq_true_eq]; exact hdb)
        · right
          rw [List.mem_singleton] at hrec
          subst hrec
          simp [mkRecord]
      · exact Or.inr hprops

/-- C8: the endpoint's persisted ownership is taken from the authenticated
session, never from the batch — two batches that differ only in their
client-supplied `team`/`collectedBy` fields produce identical stores and
identical per-item results — and every document the endpoint adds carries
the session's `team` and `collectedBy`, `syncStatus = synced`, and a
`syncHistory` entry with the server timestamp. -/
theorem syncResponses_server_ownership (a : Auth) (now : Nat)
    (b1 b2 : List SyncItem) (db : List StoredResponse)
    (h : sameExceptOwnership b1 b2 = true) :
    syncResponses a now b1 db = syncResponses a now b2 db ∧
    ((syncResponses a now b1 db).1.all fun r =>
      decide (r ∈ db) ||
        (decide (r.team = a.team) && decide (r.collectedBy = a.userId) &&
          decide (r.syncStatus = SyncStatus.synced) &&
          decide (r.syncHistory =
            [{ timestamp := now, status := SyncStatus.synced,
               message := "Synced from offline device" }]))) = true :=
  ⟨syncGo_ownership_eq a now b1 b2 db h, syncGo_created_records a now b1 db⟩

/-- Witness for C8: one batch item against its copy with altered
client-supplied ownership fields, starting from an empty store. -/
theorem syncResponses_server_ownership_witness :
    syncResponses authSession 7 [itemOne] [] =
      syncResponses authSession 7 [itemOneAltOwner] [] ∧
    ((syncResponses authSession 7 [itemOne] []).1.all fun r =>
      decide (r ∈ ([] : List StoredResponse)) ||
        (decide (r.team = authSession.team) && decide (r.collectedBy = authSession.userId) &&
          decide (r.syncStatus = SyncStatus.synced) &&
          decide (r.syncHistory =
            [{ timestamp := 7, status := SyncStatus.synced,
               message := "Synced from offline device" }]))) = true :=
  syncResponses_server_ownership authSession 7 [itemOne] [itemOneAltOwner] [] (by decide)

/-- C4 counterexample: the declared `responseSchema` indexes admit a
collection containing two distinct documents with the same
`(deviceInfo.deviceId, analytics.startTime)` pair — no declared index is
unique, so the schema does not make sharing that key pair impossible. -/
theorem schemaIndexes_allow_duplicate_key :
    satisfiesIndexes responseSchemaIndexes [dupRecordA, dupRecordB] ∧
    dupRecordA.deviceId = dupRecordB.deviceId ∧
    dupRecordA.startTime = dupRecordB.startTime ∧
    dupRecordA ≠ dupRecordB :=
  ⟨by decide, rfl, rfl, by decide⟩

/-- C4 amended: every index declared on `responseSchema` is non-unique, so
the persistence layer enforces no uniqueness on the natural key; the
"already synced" outcome is produced solely by the application-level
lookup-then-insert of `syncResponses`, which does keep each natural key
matched by at most one persisted document. -/
theorem dedupIsApplicationLevel (a : Auth) (now : Nat) (items : List SyncItem)
    (db : List StoredResponse) (d : String) (t : Nat)
    (h : countKey db d t ≤ 1) :
    (responseSchemaIndexes.all fun i => !i.unique) = true ∧
    countKey (syncResponses a now items db).1 d t ≤ 1 :=
  ⟨by decide, syncGo_countKey_le a now items db d t h⟩

/-- Witness for C4 at a batch that submits the same item twice against an
empty store. -/
theorem dedupIsApplicationLevel_witness :
    (responseSchemaIndexes.all fun i => !i.unique) = true ∧
    countKey (syncResponses authSession 3 [itemOne, itemOne] []).1 "device-1" 100 ≤ 1 :=
  dedupIsApplicationLevel authSession 3 [itemOne, itemOne] [] "device-1" 100 (by decide)
